import Mathlib

/-!
Verification of the packet-level protocol driver in `src/index.js`
(infrared transceiver driver for an ATTiny-based daughterboard).

The JavaScript source is shallowly embedded: byte buffers become `List Nat`,
SPI responses are passed explicitly to the continuation they feed, and the
retry loops driven by completion callbacks become structural recursions over
the list of successive bus responses (one list entry per issued transfer).
-/

/- Protocol constants (src/index.js lines 14-33). -/

def PACKET_CONF : Nat := 0x55
def ACK_CONF : Nat := 0x33
def FIN_CONF : Nat := 0x16

def ACK_CMD : Nat := 0x00
def FIRMWARE_CMD : Nat := 0x01
def IR_TX_CMD : Nat := 0x02
def IR_RX_AVAIL_CMD : Nat := 0x03
def IR_RX_CMD : Nat := 0x04
def RX_START_CMD : Nat := 0x05
def RX_STOP_CMD : Nat := 0x06
def CRC_CMD : Nat := 0x06
def MAX_SIGNAL_DURATION : Nat := 200

def FIRMWARE_VERSION : Nat := 0x02
def CRC_HIGH : Nat := 0x79
def CRC_LOW : Nat := 0xA8

/-- Entry of an expected-response template passed to `_validateResponse`:
either the JavaScript literal `false` (a wildcard position) or a byte value. -/
inductive Expected where
  | wildcard
  | byte (b : Nat)
deriving DecidableEq

/-- Loop body of `_validateResponse` (src/index.js lines 312-320), with the
running index made explicit.  The JavaScript guard `expected[index] == false`
uses loose equality, so it is satisfied both by the wildcard literal `false`
and by the byte value `0` (`0 == false` holds in JavaScript); either way the
entry is skipped with `continue`.  Otherwise `expected[index] != values[index]`
(again loose) fails when the bytes differ, and also when `index` is beyond the
end of `values` (a number is never loosely equal to `undefined`); failure
breaks out of the loop with result `false`. -/
def validFrom (values : List Nat) : List Expected → Nat → Bool
  | [], _ => true
  | .wildcard :: rest, idx => validFrom values rest (idx + 1)
  | .byte b :: rest, idx =>
    if b = 0 then validFrom values rest (idx + 1)
    else if values[idx]? = some b then validFrom values rest (idx + 1)
    else false

/-- Embedding of `_validateResponse(values, expected)` (src/index.js lines 310-324). -/
def validateResponse (values : List Nat) (expected : List Expected) : Bool :=
  validFrom values expected 0

/-- Spec wording for claim C3: every non-wildcard expected entry equals the
response byte at the same position. -/
def specPositionalMatch (values : List Nat) (expected : List Expected) : Prop :=
  ∀ (i b : Nat), expected[i]? = some (Expected.byte b) → values[i]? = some b

/-- The positional-match predicate amended for JavaScript loose equality:
an expected byte `0` is also skipped (treated as a wildcard), so only nonzero
expected bytes are required to match. -/
def specPositionalMatchExceptZero (values : List Nat) (expected : List Expected) : Prop :=
  ∀ (i b : Nat), expected[i]? = some (Expected.byte b) → b ≠ 0 → values[i]? = some b

/- TX duration encoder (src/index.js lines 207-267). -/

/-- Embedding of `_constructTXPacket(frequency, signalDurations)` (src/index.js lines
244-267): pushes the command byte, the PWM frequency, the duration count in
16-bit words, every raw duration byte in order, one dummy byte to clock out
the final echo, and the finish confirmation. -/
def constructTXPacket (frequency : Nat) (signalDurations : List Nat) : List Nat :=
  [IR_TX_CMD, frequency, signalDurations.length / 2] ++ signalDurations ++ [0x00, FIN_CONF]

/-- Expected echo template checked by `sendRawSignal`'s completion
(src/index.js line 236). -/
def txExpected (frequency : Nat) (signalDurations : List Nat) : List Expected :=
  [.byte PACKET_CONF, .byte IR_TX_CMD, .byte frequency, .byte (signalDurations.length / 2)]

/-- Observable effects of one `sendRawSignal` call: error callbacks fired
before the bus transfer, the frames transferred, error callbacks fired by the
completion handler, and whether the `transmitting` flag was ever set. -/
structure TxOutcome where
  errorsBeforeTransfer : Nat
  transfers : List (List Nat)
  errorsAfterTransfer : Nat
  transmittingSet : Bool
deriving DecidableEq

/-- Embedding of `sendRawSignal(frequency, signalDurations, callback)` (src/index.js lines
207-242), with the SPI echo passed explicitly.  The `frequency <= 0` and
`length > MAX_SIGNAL_DURATION` guards return after firing the error callback,
but the odd-length guard (lines 218-222) only fires the callback — it has no
`return`, so execution falls through: `transmitting` is set, the packet is
built and the transfer is issued anyway.  The completion handler clears
`transmitting` and reports an error when the echo fails validation. -/
def sendRawSignal (frequency : Nat) (signalDurations : List Nat) (response : List Nat) :
    TxOutcome :=
  if frequency ≤ 0 then
    ⟨1, [], 0, false⟩
  else if MAX_SIGNAL_DURATION < signalDurations.length then
    ⟨1, [], 0, false⟩
  else
    let oddErrors := if signalDurations.length % 2 ≠ 0 then 1 else 0
    let tx := constructTXPacket frequency signalDurations
    let echoOk := validateResponse response (txExpected frequency signalDurations)
    ⟨oddErrors, [tx], if echoOk then 0 else 1, true⟩

/- RX duration fetcher (src/index.js lines 108-197). -/

/-- JavaScript `Buffer.prototype.slice(start, end)` for in-range arguments:
the end index is clamped to the buffer length. -/
def jsSlice (l : List Nat) (s e : Nat) : List Nat := (l.take e).drop s

/-- The slicing performed on an in-frame fetch response (src/index.js lines
181 and 186): drop the 3 echoed header bytes and the stop bit, then drop the
first two payload bytes (the inter-packet-gap indicator).  The second slice's
end argument `response.length - 1` exceeds the intermediate buffer's length
and is clamped. -/
def fetchRXSliced (response : List Nat) : List Nat :=
  let buf := jsSlice response 3 (response.length - 1)
  jsSlice buf 2 (response.length - 1)

/-- The fetch request frame (src/index.js lines 166-170): header, `numBytes`
placeholder bytes (a `new Array(numBytes)` of holes, which `Buffer` coerces
to zeros), and the stop bit. -/
def rxFetchPacket (numInt16 : Nat) : List Nat :=
  [IR_RX_CMD, 0x00, 0x00] ++ List.replicate (numInt16 * 2) 0 ++ [FIN_CONF]

/-- The fetch-completion continuation `spiComplete` (src/index.js lines
172-193), with result `(emitted data buffer, completion callback invoked)`.
If the tail byte is not `FIN_CONF` the frame is discarded with a warning and
the callback runs (out-of-frame branch).  Otherwise the two slices are
computed, and then line 189 executes `console.log('emitting data!', data)`
where no variable `data` is in scope: in JavaScript reading an undeclared
identifier throws a ReferenceError, so the `emit('data', buf)` on line 190
and the callback on line 191 are unreachable; the sliced buffer is dead.
The thrown error is modelled as `Except.error ()`. -/
def fetchRXTail (response : List Nat) : Except Unit (Option (List Nat) × Bool) :=
  let fin := response.getD (response.length - 1) 0
  if fin ≠ FIN_CONF then
    Except.ok (none, true)
  else
    let _buf := fetchRXSliced response
    Except.error ()

/-- Validation template for the availability query response (src/index.js
line 159). -/
def fetchRXAvailValid (availResponse : List Nat) : Bool :=
  validateResponse availResponse [.byte PACKET_CONF, .byte IR_RX_AVAIL_CMD, .byte 1]

/-- Embedding of `_fetchRXDurations` (src/index.js lines 151-197) given the responses to
its two transfers.  The `if (valid)` on line 160 has no else branch: when the
availability response fails validation, the completion callback is never
invoked (second component `false`) and no fetch transfer happens. -/
def fetchRXDurations (availResponse fetchResponse : List Nat) :
    Except Unit (Option (List Nat) × Bool) :=
  if fetchRXAvailValid availResponse then fetchRXTail fetchResponse
  else Except.ok (none, false)

/-- Outcome of one firing of the IRQ handler: how many new edge-triggered
listeners were armed and how many deferred retries were scheduled. -/
structure IRQOutcome where
  armed : Nat
  deferred : Nat
deriving DecidableEq

/-- Embedding of `_IRQHandler` (src/index.js lines 108-121): while transmitting it only
schedules a 500 ms retry of itself (no listener armed yet); otherwise it runs
`_fetchRXDurations`, whose completion callback — when it runs — arms exactly
one new edge listener.  The callback does not run when the availability
validation fails (missing else branch) or when the in-frame path throws its
ReferenceError, so no listener is armed in those cases. -/
def IRQHandler (transmitting : Bool) (availResponse fetchResponse : List Nat) : IRQOutcome :=
  if transmitting then ⟨0, 1⟩
  else
    match fetchRXDurations availResponse fetchResponse with
    | Except.ok (_, true) => ⟨1, 0⟩
    | Except.ok (_, false) => ⟨0, 0⟩
    | Except.error _ => ⟨0, 0⟩

/- Link state machine: lazy listening activation (src/index.js lines 35-62,
123-149) and connection handshake (lines 269-308). -/

/-- Driver state relevant to listening activation: the `listening` flag, the
number of subscribers to the data event, and the number of armed edge
listeners on the IRQ pin. -/
structure LinkState where
  listening : Bool
  dataListeners : Nat
  irqHigh : Nat
deriving DecidableEq

/-- State right after the field initialisation in the constructor
(src/index.js lines 42-43): not listening, no data subscribers, no armed
edge listener. -/
def initLinkState : LinkState := ⟨false, 0, 0⟩

/-- Embedding of `setListening(set, callback)` (src/index.js lines 123-149), returning the
new state and the frames transferred.  The transfer of `[cmd, 0x00, 0x00]` is
issued unconditionally — there is no check of the current `listening` state.
Only if the echo validates is `listening` updated; turning listening off
removes all IRQ listeners, turning it on arms one edge listener if none is
armed. -/
def setListening (set : Bool) (response : List Nat) (s : LinkState) :
    LinkState × List (List Nat) :=
  (if validateResponse response
      [.byte PACKET_CONF, .byte (if set then RX_START_CMD else RX_STOP_CMD)] then
     if set then
       { s with listening := true, irqHigh := if s.irqHigh = 0 then 1 else s.irqHigh }
     else
       { s with listening := false, irqHigh := 0 }
   else s,
   [[if set then RX_START_CMD else RX_STOP_CMD, 0x00, 0x00]])

/-- The `newListener` handler (src/index.js lines 50-55): Node emits
`newListener` before the listener is added, so `setListening(1)` fires only
when the data-listener count is still zero; then the listener is added. -/
def addDataListener (response : List Nat) (s : LinkState) : LinkState × List (List Nat) :=
  if s.dataListeners = 0 then
    let r := setListening true response s
    ({ r.1 with dataListeners := r.1.dataListeners + 1 }, r.2)
  else ({ s with dataListeners := s.dataListeners + 1 }, [])

/-- The `removeListener` handler (src/index.js lines 57-62): Node emits
`removeListener` after removal, so `setListening(0)` fires exactly when the
count has just dropped to zero. -/
def removeDataListener (response : List Nat) (s : LinkState) : LinkState × List (List Nat) :=
  let s2 := { s with dataListeners := s.dataListeners - 1 }
  if s2.dataListeners = 0 then setListening false response s2
  else (s2, [])

/-- Validity of a firmware-version response as checked by
`getFirmwareVersion` (src/index.js line 302): positional validation against
`[false, FIRMWARE_CMD]` plus an exact length of 3. -/
def fwRespValid (response : List Nat) : Bool :=
  validateResponse response [.wildcard, .byte FIRMWARE_CMD] && response.length == 3

/-- Result of one firmware-version query (src/index.js lines 296-308): the
version byte `response[2]` on a valid response, or a failure. -/
def fwVersionOf (response : List Nat) : Option Nat :=
  if fwRespValid response then some (response.getD 2 0) else none

/-- Embedding of `_establishCommunication(retries, callback)` (src/index.js lines
269-294) over the list of successive query responses, one entry per issued
transfer.  Returns `(some version, frames)` on success, `(none, frames)` on
the terminal failure (the JavaScript decrements `retries` and errors out when
the decremented value is falsy), or `none` if the trace is exhausted while
the retry loop is still running.  Every issued frame is recorded. -/
def establishComm : Nat → List (List Nat) → Option (Option Nat × List (List Nat))
  | _, [] => none
  | retries, response :: rest =>
    match fwVersionOf response with
    | some v => some (some v, [[FIRMWARE_CMD, 0x00, 0x00]])
    | none =>
      if retries - 1 = 0 then some (none, [[FIRMWARE_CMD, 0x00, 0x00]])
      else
        (establishComm (retries - 1) rest).map
          (fun p => (p.1, [FIRMWARE_CMD, 0x00, 0x00] :: p.2))

/-- Validity of a CRC query response as checked by `readFirmwareCRC`
(src/index.js line 343). -/
def crcRespValid (res : List Nat) : Bool :=
  validateResponse res [.wildcard, .byte CRC_CMD, .byte CRC_HIGH, .byte CRC_LOW] &&
    res.length == 4

/-- Embedding of `readFirmwareCRC(retries, callback)` (src/index.js lines 337-356) over
the list of successive CRC query responses.  Returns `(number of reflash
calls, frames issued)` once a query succeeds, or `none` if the trace is
exhausted first.  On a mismatch with a positive decremented budget it
retries; otherwise it escalates to `updateFirmware` (src/index.js lines
358-366), which reflashes (count + 1), waits 500 ms, and re-enters
`readFirmwareCRC` with a fresh budget of 5 — that mutual recursion is
inlined here in the escalation branch. -/
def readFirmwareCRCRun : Nat → List (List Nat) → Option (Nat × List (List Nat))
  | _, [] => none
  | retries, res :: rest =>
    if crcRespValid res then some (0, [[CRC_CMD, 0x00, 0x00, 0x00]])
    else if 0 < retries - 1 then
      (readFirmwareCRCRun (retries - 1) rest).map
        (fun p => (p.1, [CRC_CMD, 0x00, 0x00, 0x00] :: p.2))
    else
      (readFirmwareCRCRun 5 rest).map
        (fun p => (p.1 + 1, [CRC_CMD, 0x00, 0x00, 0x00] :: p.2))

/-- Embedding of `updateFirmware(fname, callback)` (src/index.js lines 358-366): one
reflash, a settle delay, then a fresh CRC verification with budget 5. -/
def updateFirmwareRun (crcTrace : List (List Nat)) : Option (Nat × List (List Nat)) :=
  (readFirmwareCRCRun 5 crcTrace).map (fun p => (p.1 + 1, p.2))

/-- Embedding of `checkForFirmwareUpdate(version, callback)` (src/index.js lines
326-335): a version strictly below the pinned `FIRMWARE_VERSION` triggers the
update path; otherwise the callback fires immediately with no transfer. -/
def checkForFirmwareUpdate (version : Nat) (crcTrace : List (List Nat)) :
    Option (Nat × List (List Nat)) :=
  if version < FIRMWARE_VERSION then updateFirmwareRun crcTrace
  else some (0, [])

/-- Observable outcome of one constructor run (src/index.js lines 35-104):
frames transferred, number of error events emitted, whether the ready event
fired, how many firmware-sync (`checkForFirmwareUpdate`) attempts were made,
and whether the completion callback was invoked.  On handshake failure the
constructor only emits an error — the callback is never called. -/
structure CtorOutcome where
  frames : List (List Nat)
  errorEvents : Nat
  ready : Bool
  fwChecks : Nat
  callbackInvoked : Bool
deriving DecidableEq

/-- The constructor's control flow (src/index.js lines 72-103) over explicit
response traces: a handshake with budget 3, then on success exactly one
firmware check, the ready event, and an unconditional `setListening(false)`
whose completion invokes the constructor callback. -/
def constructorRun (hsTrace crcTrace : List (List Nat)) (stopResponse : List Nat)
    (s : LinkState) : Option (CtorOutcome × LinkState) :=
  match establishComm 3 hsTrace with
  | none => none
  | some (none, hsFrames) => some (⟨hsFrames, 1, false, 0, false⟩, s)
  | some (some version, hsFrames) =>
    (checkForFirmwareUpdate version crcTrace).map fun fw =>
      (⟨hsFrames ++ fw.2 ++ (setListening false stopResponse s).2, 0, true, 1, true⟩,
       (setListening false stopResponse s).1)

/- Timer abstraction (src/index.js lines 368-381). -/

/-- Big-endian signed 16-bit decoding of two bytes, as performed by Node's
`Buffer.prototype.readInt16BE`. -/
def int16OfBytes (hi lo : Nat) : Int :=
  if hi * 256 + lo < 32768 then ((hi * 256 + lo : Nat) : Int)
  else ((hi * 256 + lo : Nat) : Int) - 65536

/-- Embedding of `buffer.readInt16BE(i)`: reads the signed big-endian word at offset `i`;
an offset beyond `length - 2` throws a range error (`none`). -/
def readInt16BE (buf : List Nat) (i : Nat) : Option Int :=
  if i + 1 < buf.length then some (int16OfBytes (buf.getD i 0) (buf.getD (i + 1) 0))
  else none

/-- Embedding of `buffer.writeInt16BE(value, i)`: writes the two's-complement big-endian
encoding of `value` at offset `i`; a value outside `[-32768, 32767]` or an
out-of-bounds offset throws (`none`). -/
def writeInt16BE (buf : List Nat) (value : Int) (i : Nat) : Option (List Nat) :=
  if i + 1 < buf.length then
    if value < -32768 ∨ 32767 < value then none
    else
      some ((buf.set i ((value % 65536).toNat / 256)).set (i + 1) ((value % 65536).toNat % 256))
  else none

/-- The loop of `timerAbstraction` (src/index.js lines 375-378):
`for (i = 0; i < buffer.length; i += 2) { raw = readInt16BE(i);
writeInt16BE(raw * 50, i); }`, with explicit fuel (the caller supplies more
fuel than iterations, so fuel exhaustion never occurs on the paths proved
below); `none` propagates a thrown range error. -/
def timerGo : Nat → List Nat → Nat → Option (List Nat)
  | 0, _, _ => none
  | fuel + 1, buf, i =>
    if i < buf.length then
      (readInt16BE buf i).bind fun raw =>
        (writeInt16BE buf (raw * 50) i).bind fun buf2 =>
          timerGo fuel buf2 (i + 2)
    else some buf

/-- Embedding of `timerAbstraction(buffer)` (src/index.js lines 368-381): multiplies each
big-endian signed 16-bit word in place by the 50-microsecond tick period and
returns the buffer; `none` if a read or write throws. -/
def timerAbstraction (buf : List Nat) : Option (List Nat) :=
  timerGo (buf.length + 1) buf 0

lemma validFrom_iff (values : List Nat) :
    ∀ (expected : List Expected) (idx : Nat),
      validFrom values expected idx = true ↔
        ∀ j b, expected[j]? = some (Expected.byte b) → b ≠ 0 → values[idx + j]? = some b := by
  intro expected
  induction expected with
  | nil =>
    intro idx
    simp [validFrom]
  | cons e rest ih =>
    intro idx
    have shift :
        (∀ j b, rest[j]? = some (Expected.byte b) → b ≠ 0 → values[idx + 1 + j]? = some b) ↔
          (∀ j b, (e :: rest)[j + 1]? = some (Expected.byte b) → b ≠ 0 →
            values[idx + (j + 1)]? = some b) := by
      constructor
      · intro h j b hj hb
        rw [show idx + (j + 1) = idx + 1 + j by omega]
        exact h j b (by simpa using hj) hb
      · intro h j b hj hb
        have := h j b (by simpa using hj) hb
        rwa [show idx + (j + 1) = idx + 1 + j by omega] at this
    cases e with
    | wildcard =>
      rw [validFrom, ih (idx + 1)]
      constructor
      · intro h j b hj hb
        cases j with
        | zero => simp at hj
        | succ j2 => exact shift.mp h j2 b hj hb
      · intro h j b hj hb
        exact shift.mpr (fun j2 b2 hj2 hb2 => h (j2 + 1) b2 hj2 hb2) j b hj hb
    | byte b0 =>
      by_cases hb0 : b0 = 0
      · subst hb0
        rw [validFrom, if_pos rfl, ih (idx + 1)]
        constructor
        · intro h j b hj hb
          cases j with
          | zero =>
            simp at hj
            exact absurd hj.symm hb
          | succ j2 => exact shift.mp h j2 b hj hb
        · intro h j b hj hb
          exact shift.mpr (fun j2 b2 hj2 hb2 => h (j2 + 1) b2 hj2 hb2) j b hj hb
      · rw [validFrom, if_neg hb0]
        by_cases hv : values[idx]? = some b0
        · rw [if_pos hv, ih (idx + 1)]
          constructor
          · intro h j b hj hb
            cases j with
            | zero =>
              simp at hj
              subst hj
              simpa using hv
            | succ j2 => exact shift.mp h j2 b hj hb
          · intro h j b hj hb
            exact shift.mpr (fun j2 b2 hj2 hb2 => h (j2 + 1) b2 hj2 hb2) j b hj hb
        · rw [if_neg hv]
          simp only [Bool.false_eq_true, false_iff]
          intro h
          have := h 0 b0 (by simp) hb0
          rw [Nat.add_zero] at this
          exact hv this

lemma validFrom_set_wildcard (values : List Nat) :
    ∀ (expected : List Expected) (i idx : Nat),
      validFrom values expected idx = true →
      validFrom values (expected.set i .wildcard) idx = true := by
  intro expected
  induction expected with
  | nil => intro i idx h; simpa using h
  | cons e rest ih =>
    intro i idx h
    have hrest : ∀ b0 : Nat, e = Expected.byte b0 → ¬ b0 = 0 →
        validFrom values (e :: rest) idx = true → validFrom values rest (idx + 1) = true := by
      intro b0 he hb0 hh
      subst he
      rw [validFrom, if_neg hb0] at hh
      by_cases hv : values[idx]? = some b0
      · rwa [if_pos hv] at hh
      · rw [if_neg hv] at hh; exact absurd hh (by simp)
    cases i with
    | zero =>
      show validFrom values (.wildcard :: rest) idx = true
      rw [validFrom]
      cases e with
      | wildcard => rwa [validFrom] at h
      | byte b0 =>
        by_cases hb0 : b0 = 0
        · rw [validFrom, if_pos hb0] at h; exact h
        · exact hrest b0 rfl hb0 h
    | succ i2 =>
      show validFrom values (e :: rest.set i2 .wildcard) idx = true
      cases e with
      | wildcard =>
        rw [validFrom] at h ⊢
        exact ih i2 (idx + 1) h
      | byte b0 =>
        rw [validFrom] at h ⊢
        by_cases hb0 : b0 = 0
        · rw [if_pos hb0] at h ⊢
          exact ih i2 (idx + 1) h
        · rw [if_neg hb0] at h ⊢
          by_cases hv : values[idx]? = some b0
          · rw [if_pos hv] at h ⊢
            exact ih i2 (idx + 1) h
          · rw [if_neg hv] at h; exact absurd h (by simp)

/-- Claim C3 (counterexample): `_validateResponse` accepts a response whose
byte differs from a non-wildcard expected entry, because the expected byte `0`
satisfies the loose-equality wildcard test `expected[index] == false` and is
skipped.  Here the template demands byte `0` at position 0, the response has
byte `5` there, yet validation succeeds — refuting the claimed equivalence. -/
theorem validateResponse_zero_byte_wildcard :
    validateResponse [5] [Expected.byte 0] = true ∧
      ¬ specPositionalMatch [5] [Expected.byte 0] := by
  constructor
  · rfl
  · intro h
    rw [specPositionalMatch] at h
    have h2 := h 0 0 rfl
    simp at h2

/-- Claim C3 (amended): `_validateResponse` returns true iff every expected
entry that is neither the wildcard literal nor the byte `0` (which JavaScript
loose equality also treats as a wildcard) equals the response byte at the same
position; and replacing any entry of a passing template by a wildcard keeps it
passing. -/
theorem validateResponse_spec :
    (∀ values expected,
        validateResponse values expected = true ↔
          specPositionalMatchExceptZero values expected) ∧
    (∀ values expected i,
        validateResponse values expected = true →
          validateResponse values (expected.set i .wildcard) = true) := by
  constructor
  · intro values expected
    rw [validateResponse, validFrom_iff, specPositionalMatchExceptZero]
    constructor
    · intro h j b hj hb
      have := h j b hj hb
      rwa [Nat.zero_add] at this
    · intro h j b hj hb
      rw [Nat.zero_add]
      exact h j b hj hb
  · intro values expected i h
    exact validFrom_set_wildcard values expected i 0 h

/-- Witness for the amended claim C3 at a concrete template and response. -/
theorem validateResponse_spec_witness :
    specPositionalMatchExceptZero [0x55, 0x06] [.wildcard, .byte 0x06] ∧
      validateResponse [0x55, 0x06] ([Expected.wildcard, Expected.byte 0x06].set 1 .wildcard) = true :=
  ⟨(validateResponse_spec.1 [0x55, 0x06] [.wildcard, .byte 0x06]).mp (by decide),
   validateResponse_spec.2 [0x55, 0x06] [.wildcard, .byte 0x06] 1 (by decide)⟩

set_option maxRecDepth 8000 in
/-- Claim C1 (code evaluated at the failing input): for an odd-length duration
buffer of length 1 (≤ 200) and frequency 38, the error callback fires, yet the
SPI transfer is still issued and the transmitting flag is still set, because
the odd-length guard lacks a `return`.  The over-length guard, by contrast,
does stop before the transfer. -/
theorem sendRawSignal_odd_falls_through :
    (sendRawSignal 38 [10] [PACKET_CONF, IR_TX_CMD, 38, 0]).errorsBeforeTransfer = 1 ∧
      (sendRawSignal 38 [10] [PACKET_CONF, IR_TX_CMD, 38, 0]).transfers =
        [constructTXPacket 38 [10]] ∧
      (sendRawSignal 38 [10] [PACKET_CONF, IR_TX_CMD, 38, 0]).transmittingSet = true ∧
      (sendRawSignal 38 (List.replicate 202 0) []).transfers = [] ∧
      (sendRawSignal 38 (List.replicate 202 0) []).transmittingSet = false := by
  refine ⟨rfl, rfl, rfl, ?_, ?_⟩ <;>
    simp [sendRawSignal, MAX_SIGNAL_DURATION, List.length_replicate]

/-- Claim C7: for frequency > 0 and an even duration buffer of length
N ≤ 200, the TX frame is the command byte, the frequency byte, the
half-length byte, the N duration bytes verbatim, one dummy byte and the
terminator, for a total length 3 + N + 2; and the echo template is the
frame-start confirmation followed by the (IR_TRANSMIT, frequency, N/2)
triple. -/
theorem constructTXPacket_layout (frequency : Nat) (ds : List Nat)
    (hf : 0 < frequency) (he : ds.length % 2 = 0)
    (hle : ds.length ≤ MAX_SIGNAL_DURATION) :
    constructTXPacket frequency ds =
        [IR_TX_CMD, frequency, ds.length / 2] ++ ds ++ [0x00, FIN_CONF] ∧
      (constructTXPacket frequency ds).length = 3 + ds.length + 2 ∧
      txExpected frequency ds =
        [.byte PACKET_CONF, .byte IR_TX_CMD, .byte frequency, .byte (ds.length / 2)] := by
  refine ⟨rfl, ?_, rfl⟩
  simp [constructTXPacket]
  omega

/-- Witness for claim C7 at frequency 38 and the two-byte buffer [1, 2]. -/
theorem constructTXPacket_layout_witness :
    constructTXPacket 38 [1, 2] = [IR_TX_CMD, 38, 1] ++ [1, 2] ++ [0x00, FIN_CONF] ∧
      (constructTXPacket 38 [1, 2]).length = 3 + 2 + 2 ∧
      txExpected 38 [1, 2] = [.byte PACKET_CONF, .byte IR_TX_CMD, .byte 38, .byte 1] :=
  constructTXPacket_layout 38 [1, 2] (by decide) (by decide) (by decide)

/-- Claim C2 (code evaluated at the failing input): a well-formed fetch
response (header echo, 2 gap bytes, 4 duration bytes, terminator) makes the
handler throw a ReferenceError before any data event is emitted — zero
data-ready signals, not one.  The slicing itself, had the following emit been
reached, would have produced exactly the 4 duration bytes; and a response
with a wrong terminator is discarded with zero data events and the callback
still runs. -/
theorem fetchRX_reference_error :
    fetchRXTail [IR_RX_CMD, 0x00, 0x00, 9, 9, 1, 2, 3, 4, FIN_CONF] = Except.error () ∧
      fetchRXSliced [IR_RX_CMD, 0x00, 0x00, 9, 9, 1, 2, 3, 4, FIN_CONF] = [1, 2, 3, 4] ∧
      fetchRXTail [IR_RX_CMD, 0x00, 0x00, 9, 9, 1, 2, 3, 4, 0x15] =
        Except.ok (none, true) :=
  ⟨rfl, rfl, rfl⟩

/-- Claim C5 (code evaluated at the failing input): an interrupt arriving
while not transmitting, with an availability response that fails validation,
arms zero new edge listeners — listening halts.  An out-of-frame fetch
re-arms exactly one listener; a well-formed fetch arms zero (the handler
throws before its callback); a deferral arms zero and schedules one retry. -/
theorem IRQHandler_arming_outcomes :
    IRQHandler false [0, 0, 0, 0] [] = ⟨0, 0⟩ ∧
      IRQHandler false [PACKET_CONF, IR_RX_AVAIL_CMD, 1, 2]
        [IR_RX_CMD, 0x00, 0x00, 9, 9, 1, 2, 0x15] = ⟨1, 0⟩ ∧
      IRQHandler false [PACKET_CONF, IR_RX_AVAIL_CMD, 1, 2]
        [IR_RX_CMD, 0x00, 0x00, 9, 9, 1, 2, FIN_CONF] = ⟨0, 0⟩ ∧
      IRQHandler true [] [] = ⟨0, 1⟩ :=
  ⟨rfl, rfl, rfl, rfl⟩

lemma establishComm_frames_all :
    ∀ (trace : List (List Nat)) (retries : Nat) (res : Option Nat × List (List Nat)),
      establishComm retries trace = some res →
      ∀ f ∈ res.2, f = [FIRMWARE_CMD, 0x00, 0x00] := by
  intro trace
  induction trace with
  | nil => intro retries res h; exact absurd h (by simp [establishComm])
  | cons response rest ih =>
    intro retries res h
    rw [establishComm] at h
    cases hv : fwVersionOf response with
    | some v =>
      rw [hv] at h
      obtain ⟨rfl⟩ : (some v, [[FIRMWARE_CMD, 0x00, 0x00]]) = res := by
        exact Option.some.inj h
      intro f hf
      simpa using hf
    | none =>
      rw [hv] at h
      by_cases hr : retries - 1 = 0
      · rw [if_pos hr] at h
        obtain ⟨rfl⟩ : ((none : Option Nat), [[FIRMWARE_CMD, 0x00, 0x00]]) = res :=
          Option.some.inj h
        intro f hf
        simpa using hf
      · rw [if_neg hr] at h
        cases hrec : establishComm (retries - 1) rest with
        | none => rw [hrec] at h; exact absurd h (by simp)
        | some p =>
          rw [hrec] at h
          obtain ⟨rfl⟩ : (p.1, [FIRMWARE_CMD, 0x00, 0x00] :: p.2) = res :=
            Option.some.inj (by simpa using h)
          intro f hf
          rcases List.mem_cons.mp hf with h1 | h2
          · exact h1
          · exact ih (retries - 1) p hrec f h2

lemma readFirmwareCRCRun_frames_all :
    ∀ (trace : List (List Nat)) (retries : Nat) (res : Nat × List (List Nat)),
      readFirmwareCRCRun retries trace = some res →
      ∀ f ∈ res.2, f = [CRC_CMD, 0x00, 0x00, 0x00] := by
  intro trace
  induction trace with
  | nil => intro retries res h; exact absurd h (by simp [readFirmwareCRCRun])
  | cons response rest ih =>
    intro retries res h
    rw [readFirmwareCRCRun] at h
    by_cases hv : crcRespValid response = true
    · rw [if_pos hv] at h
      obtain ⟨rfl⟩ : ((0 : Nat), [[CRC_CMD, 0x00, 0x00, 0x00]]) = res := Option.some.inj h
      intro f hf
      simpa using hf
    · rw [if_neg hv] at h
      by_cases hr : 0 < retries - 1
      · rw [if_pos hr] at h
        cases hrec : readFirmwareCRCRun (retries - 1) rest with
        | none => rw [hrec] at h; exact absurd h (by simp)
        | some p =>
          rw [hrec] at h
          obtain ⟨rfl⟩ : (p.1, [CRC_CMD, 0x00, 0x00, 0x00] :: p.2) = res :=
            Option.some.inj (by simpa using h)
          intro f hf
          rcases List.mem_cons.mp hf with h1 | h2
          · exact h1
          · exact ih (retries - 1) p hrec f h2
      · rw [if_neg hr] at h
        cases hrec : readFirmwareCRCRun 5 rest with
        | none => rw [hrec] at h; exact absurd h (by simp)
        | some p =>
          rw [hrec] at h
          obtain ⟨rfl⟩ : (p.1 + 1, [CRC_CMD, 0x00, 0x00, 0x00] :: p.2) = res :=
            Option.some.inj (by simpa using h)
          intro f hf
          rcases List.mem_cons.mp hf with h1 | h2
          · exact h1
          · exact ih 5 p hrec f h2

lemma checkForFirmwareUpdate_frames_all (version : Nat) (trace : List (List Nat))
    (res : Nat × List (List Nat)) (h : checkForFirmwareUpdate version trace = some res) :
    ∀ f ∈ res.2, f = [CRC_CMD, 0x00, 0x00, 0x00] := by
  rw [checkForFirmwareUpdate] at h
  by_cases hv : version < FIRMWARE_VERSION
  · rw [if_pos hv, updateFirmwareRun] at h
    cases hrec : readFirmwareCRCRun 5 trace with
    | none => rw [hrec] at h; exact absurd h (by simp)
    | some p =>
      rw [hrec] at h
      obtain ⟨rfl⟩ : (p.1 + 1, p.2) = res := Option.some.inj (by simpa using h)
      exact readFirmwareCRCRun_frames_all trace 5 p hrec
  · rw [if_neg hv] at h
    obtain ⟨rfl⟩ : ((0 : Nat), ([] : List (List Nat))) = res := Option.some.inj h
    intro f hf
    simp at hf

set_option maxRecDepth 8000 in
/-- Claim C4 (counterexample): one `readFirmwareCRC(5, ...)` invocation faced
with ten consecutive CRC mismatches and then a success performs two reflash
calls, not one: exhausting the budget reflashes and re-enters the check with
a fresh budget of 5, and exhausting that budget reflashes again. -/
theorem readFirmwareCRC_two_reflashes :
    readFirmwareCRCRun 5
        (List.replicate 10 [0, 0, 0, 0] ++ [[0x00, CRC_CMD, CRC_HIGH, CRC_LOW]]) =
      some (2, List.replicate 11 [CRC_CMD, 0x00, 0x00, 0x00]) := by
  decide

/-- Claim C4 (amended): exhausting the retry budget of 5 on consecutive CRC
mismatches triggers exactly one reflash followed by a settle delay and a
fresh CRC check with a reset budget of 5 — so five consecutive mismatches
followed by a success trigger exactly one reflash — but the fresh check can
escalate again: one more reflash per further block of five mismatches, and
the chain ends only when a CRC query succeeds. -/
theorem readFirmwareCRC_escalation :
    (∀ (bads rest : List (List Nat)), bads.length = 5 →
        (∀ r ∈ bads, crcRespValid r = false) →
        readFirmwareCRCRun 5 (bads ++ rest) =
          (readFirmwareCRCRun 5 rest).map
            (fun p => (p.1 + 1, List.replicate 5 [CRC_CMD, 0x00, 0x00, 0x00] ++ p.2))) ∧
      (∀ (good : List Nat) (rest : List (List Nat)), crcRespValid good = true →
        readFirmwareCRCRun 5 (good :: rest) = some (0, [[CRC_CMD, 0x00, 0x00, 0x00]])) := by
  constructor
  · intro bads rest hlen hb
    rcases bads with _ | ⟨b1, _ | ⟨b2, _ | ⟨b3, _ | ⟨b4, _ | ⟨b5, _ | ⟨b6, t⟩⟩⟩⟩⟩⟩ <;>
      simp only [List.length] at hlen
    pick_goal 6
    · have h1 : crcRespValid b1 = false := hb b1 (by simp)
      have h2 : crcRespValid b2 = false := hb b2 (by simp)
      have h3 : crcRespValid b3 = false := hb b3 (by simp)
      have h4 : crcRespValid b4 = false := hb b4 (by simp)
      have h5 : crcRespValid b5 = false := hb b5 (by simp)
      cases hrec : readFirmwareCRCRun 5 rest with
      | none =>
        simp [readFirmwareCRCRun, h1, h2, h3, h4, h5, hrec]
      | some p =>
        simp [readFirmwareCRCRun, h1, h2, h3, h4, h5, hrec, List.replicate]
    all_goals omega
  · intro good rest hg
    simp [readFirmwareCRCRun, hg]

/-- Witness for the amended claim C4: five concrete mismatching responses
followed by the matching CRC response, giving exactly one reflash relative to
the fresh check on the remaining trace. -/
theorem readFirmwareCRC_escalation_witness :
    readFirmwareCRCRun 5
        (List.replicate 5 [0, 0, 0, 0] ++ [[0x00, CRC_CMD, CRC_HIGH, CRC_LOW]]) =
      (readFirmwareCRCRun 5 [[0x00, CRC_CMD, CRC_HIGH, CRC_LOW]]).map
        (fun p => (p.1 + 1, List.replicate 5 [CRC_CMD, 0x00, 0x00, 0x00] ++ p.2)) :=
  readFirmwareCRC_escalation.1 (List.replicate 5 [0, 0, 0, 0])
    [[0x00, CRC_CMD, CRC_HIGH, CRC_LOW]] (by decide) (by decide)

/-- Claim C6: with the handshake budget of 3, three consecutive failed
firmware-version queries reach the terminal failure — exactly one error event,
no firmware-sync attempt, no ready event, no callback, and exactly the three
query frames (nothing further is issued even if more responses would follow);
while failure, failure, success reaches the connected/ready path and performs
exactly one firmware-sync attempt. -/
theorem establishComm_retry_paths
    (r1 r2 r3 g : List Nat) (rest1 rest2 crcTrace : List (List Nat))
    (stopResponse : List Nat) (s : LinkState) (v : Nat)
    (h1 : fwVersionOf r1 = none) (h2 : fwVersionOf r2 = none) (h3 : fwVersionOf r3 = none)
    (hg : fwVersionOf g = some v) (hv : FIRMWARE_VERSION ≤ v) :
    constructorRun (r1 :: r2 :: r3 :: rest1) crcTrace stopResponse s =
        some (⟨[[FIRMWARE_CMD, 0x00, 0x00], [FIRMWARE_CMD, 0x00, 0x00],
                [FIRMWARE_CMD, 0x00, 0x00]], 1, false, 0, false⟩, s) ∧
      constructorRun (r1 :: r2 :: g :: rest2) crcTrace stopResponse s =
        some (⟨[[FIRMWARE_CMD, 0x00, 0x00], [FIRMWARE_CMD, 0x00, 0x00],
                [FIRMWARE_CMD, 0x00, 0x00], [RX_STOP_CMD, 0x00, 0x00]],
               0, true, 1, true⟩, (setListening false stopResponse s).1) := by
  have hnv : ¬ v < FIRMWARE_VERSION := by omega
  constructor
  · simp [constructorRun, establishComm, h1, h2, h3]
  · simp [constructorRun, establishComm, h1, h2, hg, checkForFirmwareUpdate, hnv,
      setListening]

/-- Witness for claim C6 at concrete traces: `[0,0,0]` fails validation (the
echoed command byte is wrong) and `[0x00, 0x01, 0x02]` is a valid version
response reporting the pinned version 2. -/
theorem establishComm_retry_paths_witness :
    constructorRun [[0, 0, 0], [0, 0, 0], [0, 0, 0]] [] [] initLinkState =
        some (⟨[[FIRMWARE_CMD, 0x00, 0x00], [FIRMWARE_CMD, 0x00, 0x00],
                [FIRMWARE_CMD, 0x00, 0x00]], 1, false, 0, false⟩, initLinkState) ∧
      constructorRun [[0, 0, 0], [0, 0, 0], [0x00, 0x01, 0x02]] [] [] initLinkState =
        some (⟨[[FIRMWARE_CMD, 0x00, 0x00], [FIRMWARE_CMD, 0x00, 0x00],
                [FIRMWARE_CMD, 0x00, 0x00], [RX_STOP_CMD, 0x00, 0x00]],
               0, true, 1, true⟩, (setListening false [] initLinkState).1) :=
  establishComm_retry_paths [0, 0, 0] [0, 0, 0] [0, 0, 0] [0x00, 0x01, 0x02]
    [] [] [] [] initLinkState 2 (by decide) (by decide) (by decide) (by decide) (by decide)

/-- Claim C8 (counterexample): the claim that a redundant stop (issued while
already in the non-listening state) never reaches the transport is false: a
successful construction starts from a non-listening state with zero data
subscribers, never turns listening on, and still puts the `RX_STOP` frame
`[0x06, 0x00, 0x00]` on the bus (src/index.js line 94 calls
`setListening(false)` unconditionally, and `setListening` transfers without
checking the current state). -/
theorem redundant_stop_reaches_transport :
    initLinkState.listening = false ∧ initLinkState.dataListeners = 0 ∧
      (constructorRun [[0x00, FIRMWARE_CMD, 0x02]] [] [] initLinkState).map
          (fun p => (p.1.frames, p.2.listening)) =
        some ([[FIRMWARE_CMD, 0x00, 0x00], [RX_STOP_CMD, 0x00, 0x00]], false) := by
  refine ⟨rfl, rfl, ?_⟩
  decide

/-- Claim C8 (amended): the listener-count guards make subscription-driven
transfers state-changing — a second data subscription while already listening
issues zero transfers, removing the last data listener issues exactly one
`RX_STOP` transfer, and the first subscription issues exactly one `RX_START`
— but `setListening` itself performs no idempotency check, so a directly
issued redundant stop (the constructor's unconditional `setListening(false)`)
does reach the transport. -/
theorem subscription_transfer_behavior :
    (∀ (s : LinkState) (response : List Nat), s.listening = true → 1 ≤ s.dataListeners →
        (addDataListener response s).2 = []) ∧
      (∀ (s : LinkState) (response : List Nat), s.dataListeners = 1 →
        (removeDataListener response s).2 = [[RX_STOP_CMD, 0x00, 0x00]]) ∧
      (∀ (s : LinkState) (response : List Nat), s.dataListeners = 0 →
        (addDataListener response s).2 = [[RX_START_CMD, 0x00, 0x00]]) := by
  refine ⟨?_, ?_, ?_⟩
  · intro s response _ hn
    have hne : ¬ s.dataListeners = 0 := by omega
    simp [addDataListener, hne]
  · intro s response hn
    simp [removeDataListener, hn, setListening]
  · intro s response hn
    simp [addDataListener, hn, setListening]

/-- Witness for the amended claim C8 at concrete states: one existing
subscriber while listening, the last subscriber leaving, and the first
subscriber arriving. -/
theorem subscription_transfer_behavior_witness :
    (addDataListener [] ⟨true, 1, 1⟩).2 = [] ∧
      (removeDataListener [PACKET_CONF, RX_STOP_CMD] ⟨true, 1, 1⟩).2 =
        [[RX_STOP_CMD, 0x00, 0x00]] ∧
      (addDataListener [PACKET_CONF, RX_START_CMD] ⟨false, 0, 0⟩).2 =
        [[RX_START_CMD, 0x00, 0x00]] :=
  ⟨subscription_transfer_behavior.1 ⟨true, 1, 1⟩ [] rfl (by decide),
   subscription_transfer_behavior.2.1 ⟨true, 1, 1⟩ [PACKET_CONF, RX_STOP_CMD] rfl,
   subscription_transfer_behavior.2.2 ⟨false, 0, 0⟩ [PACKET_CONF, RX_START_CMD] rfl⟩

/-- Claim C9: every constructor run that reaches the ready path (handshake
succeeded within budget, firmware check completed) invokes the completion
callback and has put exactly one `RX_STOP` frame `[0x06, 0x00, 0x00]` on the
bus before it — regardless of the starting state, so in particular with zero
data subscribers.  Handshake query frames are `[0x01, 0x00, 0x00]` and CRC
query frames are four bytes long, so no other transfer counts as an
`RX_STOP` frame (the shared 0x06 opcode of `CRC_CMD` notwithstanding). -/
theorem constructorRun_single_rx_stop
    (hsTrace crcTrace : List (List Nat)) (stopResponse : List Nat) (s : LinkState)
    (out : CtorOutcome) (s2 : LinkState)
    (h : constructorRun hsTrace crcTrace stopResponse s = some (out, s2))
    (hready : out.ready = true) :
    out.callbackInvoked = true ∧ out.frames.count [RX_STOP_CMD, 0x00, 0x00] = 1 := by
  rw [constructorRun] at h
  split at h
  · exact absurd h (by simp)
  · rename_i hsFrames heq
    simp only [Option.some.injEq, Prod.mk.injEq] at h
    obtain ⟨h1, h2⟩ := h
    exact absurd hready (by rw [← h1]; simp)
  · rename_i version hsFrames heq
    cases hfw : checkForFirmwareUpdate version crcTrace with
    | none => rw [hfw] at h; exact absurd h (by simp)
    | some fw =>
      rw [hfw] at h
      simp only [Option.map_some', Option.some.injEq, Prod.mk.injEq] at h
      obtain ⟨h3, h4⟩ := h
      rw [← h3]
      refine ⟨rfl, ?_⟩
      have hc1 : hsFrames.count [RX_STOP_CMD, 0x00, 0x00] = 0 :=
        List.count_eq_zero.mpr (fun hmem =>
          absurd (establishComm_frames_all hsTrace 3 (some version, hsFrames) heq _ hmem)
            (by decide))
      have hc2 : fw.2.count [RX_STOP_CMD, 0x00, 0x00] = 0 :=
        List.count_eq_zero.mpr (fun hmem =>
          absurd (checkForFirmwareUpdate_frames_all version crcTrace fw hfw _ hmem)
            (by decide))
      have hc3 : (setListening false stopResponse s).2.count [RX_STOP_CMD, 0x00, 0x00] = 1 := by
        simp [setListening, List.count_cons]
      show (hsFrames ++ fw.2 ++ (setListening false stopResponse s).2).count
          [RX_STOP_CMD, 0x00, 0x00] = 1
      rw [List.count_append, List.count_append, hc1, hc2, hc3]

/-- Witness for claim C9: a one-query handshake trace reporting the pinned
version, an empty CRC trace, and the initial state with zero subscribers. -/
theorem constructorRun_single_rx_stop_witness :
    (⟨[[FIRMWARE_CMD, 0x00, 0x00], [RX_STOP_CMD, 0x00, 0x00]], 0, true, 1, true⟩ :
        CtorOutcome).callbackInvoked = true ∧
      (⟨[[FIRMWARE_CMD, 0x00, 0x00], [RX_STOP_CMD, 0x00, 0x00]], 0, true, 1, true⟩ :
        CtorOutcome).frames.count [RX_STOP_CMD, 0x00, 0x00] = 1 :=
  constructorRun_single_rx_stop [[0x00, FIRMWARE_CMD, 0x02]] [] [] initLinkState
    ⟨[[FIRMWARE_CMD, 0x00, 0x00], [RX_STOP_CMD, 0x00, 0x00]], 0, true, 1, true⟩ initLinkState
    (by decide) rfl

lemma getD_set_self (l : List Nat) (i a : Nat) (h : i < l.length) :
    (l.set i a).getD i 0 = a := by
  rw [List.getD_eq_getElem?_getD, List.getElem?_set_eq_of_lt a h]
  rfl

lemma getD_set_ne (l : List Nat) (i j a : Nat) (h : i ≠ j) :
    (l.set i a).getD j 0 = l.getD j 0 := by
  rw [List.getD_eq_getElem?_getD, List.getElem?_set_ne h, ← List.getD_eq_getElem?_getD]

lemma writeInt16BE_length (buf : List Nat) (value : Int) (i : Nat) (out : List Nat)
    (h : writeInt16BE buf value i = some out) : out.length = buf.length := by
  rw [writeInt16BE] at h
  by_cases h1 : i + 1 < buf.length
  · rw [if_pos h1] at h
    by_cases h2 : value < -32768 ∨ 32767 < value
    · rw [if_pos h2] at h; exact absurd h (by simp)
    · rw [if_neg h2] at h
      obtain rfl := Option.some.inj h
      simp [List.length_set]
  · rw [if_neg h1] at h; exact absurd h (by simp)

lemma writeInt16BE_getD_ne (buf : List Nat) (value : Int) (i : Nat) (out : List Nat)
    (h : writeInt16BE buf value i = some out) (j : Nat) (hj1 : j ≠ i) (hj2 : j ≠ i + 1) :
    out.getD j 0 = buf.getD j 0 := by
  rw [writeInt16BE] at h
  by_cases h1 : i + 1 < buf.length
  · rw [if_pos h1] at h
    by_cases h2 : value < -32768 ∨ 32767 < value
    · rw [if_pos h2] at h; exact absurd h (by simp)
    · rw [if_neg h2] at h
      obtain rfl := Option.some.inj h
      rw [getD_set_ne _ _ _ _ (fun he => hj2 he.symm),
        getD_set_ne _ _ _ _ (fun he => hj1 he.symm)]
  · rw [if_neg h1] at h; exact absurd h (by simp)

lemma int16OfBytes_split (value : Int) (h1 : -32768 ≤ value) (h2 : value ≤ 32767) :
    int16OfBytes ((value % 65536).toNat / 256) ((value % 65536).toNat % 256) = value := by
  have hnn : 0 ≤ value % 65536 := Int.emod_nonneg value (by norm_num)
  have hlt : value % 65536 < 65536 := Int.emod_lt_of_pos value (by norm_num)
  have hu : ((value % 65536).toNat : Int) = value % 65536 := Int.toNat_of_nonneg hnn
  rw [int16OfBytes]
  have hcombine : (value % 65536).toNat / 256 * 256 + (value % 65536).toNat % 256 =
      (value % 65536).toNat := by omega
  rw [hcombine]
  by_cases hc : (value % 65536).toNat < 32768
  · rw [if_pos hc]; omega
  · rw [if_neg hc]; omega

lemma readInt16BE_writeInt16BE_self (buf : List Nat) (value : Int) (i : Nat) (out : List Nat)
    (h : writeInt16BE buf value i = some out) : readInt16BE out i = some value := by
  have hlen := writeInt16BE_length buf value i out h
  rw [writeInt16BE] at h
  by_cases h1 : i + 1 < buf.length
  · rw [if_pos h1] at h
    by_cases h2 : value < -32768 ∨ 32767 < value
    · rw [if_pos h2] at h; exact absurd h (by simp)
    · rw [if_neg h2] at h
      obtain rfl := Option.some.inj h
      have hi : i < buf.length := by omega
      rw [readInt16BE, if_pos (by omega : i + 1 <
        ((buf.set i ((value % 65536).toNat / 256)).set (i + 1)
          ((value % 65536).toNat % 256)).length)]
      rw [getD_set_ne _ _ _ _ (by omega), getD_set_self _ _ _ (by simpa using hi),
        getD_set_self _ _ _ (by simpa using h1)]
      rw [int16OfBytes_split value (by omega) (by omega)]
  · rw [if_neg h1] at h; exact absurd h (by simp)

lemma readInt16BE_congr (a b : List Nat) (i : Nat) (hlen : a.length = b.length)
    (h0 : a.getD i 0 = b.getD i 0) (h1 : a.getD (i + 1) 0 = b.getD (i + 1) 0) :
    readInt16BE a i = readInt16BE b i := by
  rw [readInt16BE, readInt16BE, hlen, h0, h1]

lemma readInt16BE_writeInt16BE_ne (buf : List Nat) (value : Int) (i : Nat) (out : List Nat)
    (h : writeInt16BE buf value i = some out) (j : Nat) (hj : j + 1 < i ∨ i + 1 < j) :
    readInt16BE out j = readInt16BE buf j := by
  refine readInt16BE_congr out buf j (writeInt16BE_length buf value i out h) ?_ ?_
  · exact writeInt16BE_getD_ne buf value i out h j (by omega) (by omega)
  · exact writeInt16BE_getD_ne buf value i out h (j + 1) (by omega) (by omega)

lemma timerGo_spec :
    ∀ (fuel : Nat) (buf : List Nat) (i : Nat),
      buf.length % 2 = 0 → i % 2 = 0 → buf.length - i < fuel →
      (∀ (j : Nat), i ≤ 2 * j → 2 * j + 1 < buf.length →
        ∀ w, readInt16BE buf (2 * j) = some w → -32768 ≤ w * 50 ∧ w * 50 ≤ 32767) →
      ∃ out, timerGo fuel buf i = some out ∧ out.length = buf.length ∧
        (∀ j, j < i → out.getD j 0 = buf.getD j 0) ∧
        (∀ j, i ≤ 2 * j → 2 * j + 1 < buf.length →
          readInt16BE out (2 * j) = (readInt16BE buf (2 * j)).map (fun w => w * 50)) := by
  intro fuel
  induction fuel with
  | zero => intro buf i _ _ hfuel _; omega
  | succ fuel ih =>
    intro buf i heven hieven hfuel hrange
    rw [timerGo]
    by_cases hi : i < buf.length
    · rw [if_pos hi]
      have hi1 : i + 1 < buf.length := by omega
      have hread : readInt16BE buf i = some (int16OfBytes (buf.getD i 0) (buf.getD (i + 1) 0)) := by
        rw [readInt16BE, if_pos hi1]
      have hi2 : 2 * (i / 2) = i := by omega
      obtain ⟨hb1, hb2⟩ :=
        hrange (i / 2) (by omega) (by omega)
          (int16OfBytes (buf.getD i 0) (buf.getD (i + 1) 0)) (by rw [hi2]; exact hread)
      have hwrite : ∃ buf2,
          writeInt16BE buf (int16OfBytes (buf.getD i 0) (buf.getD (i + 1) 0) * 50) i =
            some buf2 := by
        rw [writeInt16BE, if_pos hi1, if_neg (by omega)]
        exact ⟨_, rfl⟩
      obtain ⟨buf2, hwrite⟩ := hwrite
      have hlen2 := writeInt16BE_length _ _ _ _ hwrite
      have hreadSelf := readInt16BE_writeInt16BE_self _ _ _ _ hwrite
      obtain ⟨out, hgo, hlenOut, hbelow, habove⟩ :=
        ih buf2 (i + 2) (by omega) (by omega) (by omega)
          (fun j hle hj w hw => by
            refine hrange j (by omega) (by omega) w ?_
            rw [← readInt16BE_writeInt16BE_ne _ _ _ _ hwrite (2 * j) (by omega)]
            exact hw)
      refine ⟨out, ?_, by omega, ?_, ?_⟩
      · rw [hread, Option.some_bind, hwrite, Option.some_bind]
        exact hgo
      · intro j hj
        rw [hbelow j (by omega)]
        exact writeInt16BE_getD_ne _ _ _ _ hwrite j (by omega) (by omega)
      · intro j hle hj
        by_cases hcase : 2 * j = i
        · rw [hcase, hread, Option.map_some']
          have hr : readInt16BE out i = readInt16BE buf2 i :=
            readInt16BE_congr out buf2 i (by omega)
              (hbelow i (by omega)) (hbelow (i + 1) (by omega))
          rw [hr, hreadSelf]
        · have hge : i + 2 ≤ 2 * j := by omega
          rw [habove j (by omega) (by omega),
            readInt16BE_writeInt16BE_ne _ _ _ _ hwrite (2 * j) (by omega)]
    · rw [if_neg hi]
      exact ⟨buf, rfl, rfl, fun j _ => rfl, fun j hle hj => absurd hj (by omega)⟩

/-- Claim C10 (counterexample): the even-length two-byte buffer holding the
word 1000 makes `timerAbstraction` throw instead of returning the mutated
buffer: 1000 × 50 = 50000 exceeds the signed 16-bit maximum, so
`writeInt16BE` raises a range error and no buffer is returned. -/
theorem timerAbstraction_overflow_throws :
    timerAbstraction [3, 232] = none := by
  decide

/-- Claim C10 (amended): for every buffer of even byte length all of whose
big-endian signed 16-bit words `w` satisfy −32768 ≤ 50·w ≤ 32767,
`timerAbstraction` returns the buffer of the same length with each word at
offset 2·i replaced by 50 times its value; a word outside that range makes
`writeInt16BE` throw a range error, so nothing is returned. -/
theorem timerAbstraction_spec (buf : List Nat)
    (heven : buf.length % 2 = 0)
    (hrange : ∀ (j : Nat), 2 * j + 1 < buf.length →
      ∀ w, readInt16BE buf (2 * j) = some w → -32768 ≤ w * 50 ∧ w * 50 ≤ 32767) :
    ∃ out, timerAbstraction buf = some out ∧ out.length = buf.length ∧
      ∀ (j : Nat), 2 * j + 1 < buf.length →
        readInt16BE out (2 * j) = (readInt16BE buf (2 * j)).map (fun w => w * 50) := by
  obtain ⟨out, h1, h2, _, h4⟩ :=
    timerGo_spec (buf.length + 1) buf 0 heven rfl (by omega)
      (fun j _ hj w hw => hrange j hj w hw)
  exact ⟨out, h1, h2, fun j hj => h4 j (Nat.zero_le _) hj⟩

/-- Witness for the amended claim C10 at the four-byte buffer encoding the
words 100 and −100 (which become 5000 and −5000). -/
theorem timerAbstraction_spec_witness :
    ∃ out, timerAbstraction [0, 100, 255, 156] = some out ∧
      out.length = ([0, 100, 255, 156] : List Nat).length ∧
      ∀ (j : Nat), 2 * j + 1 < ([0, 100, 255, 156] : List Nat).length →
        readInt16BE out (2 * j) =
          (readInt16BE [0, 100, 255, 156] (2 * j)).map (fun w => w * 50) :=
  timerAbstraction_spec [0, 100, 255, 156] (by decide)
    (by
      intro j hj w hw
      simp only [List.length_cons, List.length_nil] at hj
      have hj2 : j = 0 ∨ j = 1 := by omega
      rcases hj2 with rfl | rfl
      · simp [readInt16BE, int16OfBytes] at hw
        omega
      · simp [readInt16BE, int16OfBytes] at hw
        omega)
